import Mathlib

/-!
# Verification of the CscTrackerAiCore slot allocator

A shallow embedding of `csctracker_ai_core/service/ApiKeyRotator.py` and the
retry loop of `csctracker_ai_core/service/IaProcessor.py`, together with
theorems checking the natural-language specification against the code.

Modelling conventions:
* Python dicts become association lists `List (String × α)` with
  insertion-order preserving update (`aset`), deletion (`aerase`) and
  lookup (`alookup`), matching dict semantics on unique keys.
* `time.time()` / `datetime.now(timezone.utc)` become an explicit `Nat`
  parameter counting whole seconds since the epoch (midnight UTC aligned).
* The compiled regexes are alternations of literals (plus `\s*` and `.*`
  pieces) searched case-insensitively; they are embedded as executable
  case-insensitive substring/scan functions over the lowered text.
-/

namespace AiCore

/-- Insertion-ordered association-list update, as Python dict assignment. -/
def aset {α : Type} (k : String) (v : α) : List (String × α) → List (String × α)
  | [] => [(k, v)]
  | (k', v') :: rest => if k' = k then (k, v) :: rest else (k', v') :: aset k v rest

/-- Association-list deletion, as Python `del d[k]` on a dict. -/
def aerase {α : Type} (k : String) : List (String × α) → List (String × α)
  | [] => []
  | (k', v') :: rest => if k' = k then rest else (k', v') :: aerase k rest

/-- Association-list lookup, as Python `d.get(k)` / `d[k]`. -/
def alookup {α : Type} (k : String) : List (String × α) → Option α
  | [] => none
  | (k', v') :: rest => if k' = k then some v' else alookup k rest

/-! ## The error-classification regexes

`APIKeyRotator.__init__` compiles five case-insensitive regexes.  Each is an
alternation of literal substrings, except `limit:\s*0` (literal, whitespace
run, literal) and `Quota.*Day` / `Quota.*Minute` (literal, any non-newline
run, literal).  They are embedded as scans over the lowercased character
list. -/

/-- Lowercased character list of a string (re.IGNORECASE is realised by
lowering both text and pattern). -/
def lcList (s : String) : List Char := s.toList.map Char.toLower

/-- Does `pat` occur as a contiguous sublist of `l`? -/
def containsSub (pat : List Char) : List Char → Bool
  | [] => pat.isEmpty
  | c :: rest => pat.isPrefixOf (c :: rest) || containsSub pat rest

/-- Case-insensitive substring test, the meaning of `re.search` for a
literal pattern compiled with `re.IGNORECASE`. -/
def ciContains (s pat : String) : Bool := containsSub (lcList pat) (lcList s)

/-- Python regex `\s` character class. -/
def isPyWs (c : Char) : Bool :=
  c = ' ' || c = '\t' || c = '\n' || c = '\r' || c = '\x0b' || c = '\x0c'

/-- After `limit:` — skip `\s*`, then require a literal `0`. -/
def limitZeroTail : List Char → Bool
  | [] => false
  | c :: rest => if c = '0' then true else if isPyWs c then limitZeroTail rest else false

/-- Scan for an occurrence of `limit:\s*0` in a lowercased list. -/
def limitZeroScan : List Char → Bool
  | [] => false
  | c :: rest =>
    (("limit:".toList).isPrefixOf (c :: rest) && limitZeroTail ((c :: rest).drop 6))
      || limitZeroScan rest

/-- After a `quota` occurrence: `.*word` — `word` must start after a run of
non-newline characters (`.` does not match a newline). -/
def afterNoNl (word : List Char) : List Char → Bool
  | [] => false
  | c :: rest => word.isPrefixOf (c :: rest) || (!(c = '\n') && afterNoNl word rest)

/-- Scan for `quota.*word` in a lowercased list. -/
def quotaThenScan (word : List Char) : List Char → Bool
  | [] => false
  | c :: rest =>
    (("quota".toList).isPrefixOf (c :: rest) && afterNoNl word ((c :: rest).drop 5))
      || quotaThenScan word rest

/-- Source: `self._regex_429 = re.compile(r"(429|RESOURCE_EXHAUSTED)", re.IGNORECASE)`. -/
def regex_429 (s : String) : Bool :=
  ciContains s "429" || ciContains s "RESOURCE_EXHAUSTED"

/-- Source: `self._regex_limit_zero = re.compile(r"limit:\s*0", re.IGNORECASE)`. -/
def regex_limit_zero (s : String) : Bool := limitZeroScan (lcList s)

/-- Source: `self._regex_per_day = re.compile(r"(PerDay|Quota.*Day)", re.IGNORECASE)`. -/
def regex_per_day (s : String) : Bool :=
  ciContains s "PerDay" || quotaThenScan ("day".toList) (lcList s)

/-- Source: `self._regex_per_minute = re.compile(r"(PerMinute|Quota.*Minute)", re.IGNORECASE)`. -/
def regex_per_minute (s : String) : Bool :=
  ciContains s "PerMinute" || quotaThenScan ("minute".toList) (lcList s)

/-- Source: `self._regex_invalid_key = re.compile(r"(API_KEY_INVALID|key not valid|unauthorized)", re.IGNORECASE)`. -/
def regex_invalid_key (s : String) : Bool :=
  ciContains s "API_KEY_INVALID" || ciContains s "key not valid" || ciContains s "unauthorized"

/-! ## Allocator state

The mutable fields of `APIKeyRotator` (the logger, env-config strings and the
lock fall away in the embedding; all operations run under the single lock). -/

structure RotState where
  free_keys : List String
  paid_keys : List String
  all_keys_count : Nat
  models : List String
  model_limits : List (String × Nat)
  active_slots : List (String × List (String × Nat))
  suspended_until : List (String × List (String × Nat))
  models_by_key : List (String × List String)
  free_index : Nat
  paid_index : Nat
  deriving Repr, DecidableEq

/-- Source: `self._active_slots[key][model]` (0 when an entry is absent; reachable
states always carry the entry, created by `_setup_key_state`). -/
def getCount (s : RotState) (k m : String) : Nat :=
  (alookup m ((alookup k s.active_slots).getD [])).getD 0

/-- Source: `self._model_limits.get(model, 1)`. -/
def limitOf (s : RotState) (m : String) : Nat :=
  (alookup m s.model_limits).getD 1

/-- Source: `self._suspended_until[key].get(model)`. -/
def getSusp (s : RotState) (k m : String) : Option Nat :=
  alookup m ((alookup k s.suspended_until).getD [])

/-- Write `self._active_slots[key][model] = n`. -/
def setCount (s : RotState) (k m : String) (n : Nat) : RotState :=
  { s with active_slots := aset k (aset m n ((alookup k s.active_slots).getD [])) s.active_slots }

/-- Source: `get_total_capacity`: `max(1, self._all_keys_count * len(self._models))`. -/
def get_total_capacity (s : RotState) : Nat :=
  max 1 (s.all_keys_count * s.models.length)

/-! ## Slot selection (`_find_slot_in_list` / `select_and_reserve_best_slot`)

The inner model loop of `_find_slot_in_list`: skip on variant mismatch
(`model_variant` truthy in Python, i.e. a non-empty string), skip while
suspended (deleting an expired suspension on inspection), and allocate the
first model whose active count is below its limit. -/

/-- Source: `if model_variant and model_variant.lower() not in model.lower(): continue`. -/
def skipVariant (mv : Option String) (model : String) : Bool :=
  match mv with
  | none => false
  | some v => v ≠ "" && !(ciContains model v)

/-- The `for model in self._models_by_key[key]` loop body of
`_find_slot_in_list`.  Returns the allocated model (if any) and the updated
state. -/
def tryModels (s : RotState) (key : String) (ct : Nat) (mv : Option String) :
    List String → Option String × RotState
  | [] => (none, s)
  | model :: rest =>
    if skipVariant mv model then tryModels s key ct mv rest
    else
      let susp := (alookup key s.suspended_until).getD []
      match alookup model susp with
      | some ts =>
        if ct < ts then tryModels s key ct mv rest
        else
          let s1 : RotState :=
            { s with suspended_until := aset key (aerase model susp) s.suspended_until }
          if getCount s1 key model < limitOf s1 model then
            (some model, setCount s1 key model (getCount s1 key model + 1))
          else tryModels s1 key ct mv rest
      | none =>
        if getCount s key model < limitOf s model then
          (some model, setCount s key model (getCount s key model + 1))
        else tryModels s key ct mv rest

/-- The outer `for i in range(count)` loop of `_find_slot_in_list`,
iterating over the precomputed circular index sequence. -/
def findSlotGo (keys_list : List String) (ct : Nat) (mv : Option String) :
    RotState → List Nat → Option (String × String) × RotState
  | s, [] => (none, s)
  | s, idx :: restIdx =>
    let key := keys_list.getD idx ""
    match tryModels s key ct mv ((alookup key s.models_by_key).getD []) with
    | (some model, s') => (some (key, model), s')
    | (none, s') => findSlotGo keys_list ct mv s' restIdx

/-- Source: `_find_slot_in_list(keys_list, start_index, current_time, model_variant)`. -/
def find_slot_in_list (s : RotState) (keys_list : List String) (start_index ct : Nat)
    (mv : Option String) : Option (String × String) × RotState :=
  let count := keys_list.length
  if count = 0 then (none, s)
  else findSlotGo keys_list ct mv s ((List.range count).map (fun i => (start_index + i) % count))

/-- Source: `select_and_reserve_best_slot(model_variant, forced_paid, forced_free)`:
Free tier first (unless `forced_paid`), then Paid (unless `forced_free`);
on a hit the tier's round-robin cursor moves to `(cursor + 1) % len`. -/
def select_and_reserve_best_slot (s : RotState) (ct : Nat) (mv : Option String)
    (forced_paid forced_free : Bool) : Option (String × String × String) × RotState :=
  let paidStep (s1 : RotState) : Option (String × String × String) × RotState :=
    if forced_free then (none, s1)
    else
      match find_slot_in_list s1 s1.paid_keys s1.paid_index ct mv with
      | (some (k, m), s2) =>
        (some (k, m, "paid"), { s2 with paid_index := (s2.paid_index + 1) % s2.paid_keys.length })
      | (none, s2) => (none, s2)
  if forced_paid then paidStep s
  else
    match find_slot_in_list s s.free_keys s.free_index ct mv with
    | (some (k, m), s1) =>
      (some (k, m, "free"), { s1 with free_index := (s1.free_index + 1) % s1.free_keys.length })
    | (none, s1) => paidStep s1

/-- Source: `liberar_slot_model(key, model)`: decrement, floored at zero; missing
entries are a no-op. -/
def liberar_slot_model (s : RotState) (key model : String) : RotState :=
  match alookup key s.active_slots with
  | none => s
  | some inner =>
    match alookup model inner with
    | none => s
    | some c =>
      if c > 0 then { s with active_slots := aset key (aset model (c - 1) inner) s.active_slots }
      else s

/-! ## Suspension and removal -/

/-- Source: `_calcular_segundos_ate_renovacao`: seconds until the next 08:00 UTC
(tomorrow's boundary when `now >= target`), plus 300.  `ct` is a whole
number of seconds since an epoch aligned to midnight UTC. -/
def calcular_segundos_ate_renovacao (ct : Nat) : Nat :=
  let sod := ct % 86400
  if sod < 28800 then (28800 - sod) + 300 else ((86400 + 28800) - sod) + 300

/-- Source: `suspender_modelo(key, model, segundos)`: record `now + segundos`,
unless a later deadline already exists. -/
def suspender_modelo (s : RotState) (ct : Nat) (key model : String) (segundos : Nat) :
    RotState :=
  if (alookup key s.models_by_key).isNone then s
  else
    let liberacao := ct + segundos
    let susp := (alookup key s.suspended_until).getD []
    match alookup model susp with
    | some old =>
      if old > liberacao then s
      else { s with suspended_until := aset key (aset model liberacao susp) s.suspended_until }
    | none =>
      { s with suspended_until := aset key (aset model liberacao susp) s.suspended_until }

/-- Source: `_tratar_erro_429(key, model, error_str)`: pick the suspension length
from the sub-signals, then suspend. -/
def tratar_erro_429 (s : RotState) (ct : Nat) (key model err : String) : RotState :=
  let suspension_time :=
    if regex_limit_zero err then 86400
    else if regex_per_day err then calcular_segundos_ate_renovacao ct
    else if regex_per_minute err then 120
    else 60
  suspender_modelo s ct key model suspension_time

/-- Source: `remove_key(key_to_remove)`: drop the first occurrence from whichever
tier list holds the key; counters and cursors are untouched. -/
def remove_key (s : RotState) (key : String) : Bool × RotState :=
  if key ∈ s.free_keys then
    (true, { s with free_keys := s.free_keys.erase key, all_keys_count := s.all_keys_count - 1 })
  else if key ∈ s.paid_keys then
    (true, { s with paid_keys := s.paid_keys.erase key, all_keys_count := s.all_keys_count - 1 })
  else (false, s)

/-- Source: `processar_exception(key, model, exception)`: 429/exhausted first, then
invalid-key, else unclassified. -/
def processar_exception (s : RotState) (ct : Nat) (key model err : String) :
    Bool × RotState :=
  if regex_429 err then (true, tratar_erro_429 s ct key model err)
  else if regex_invalid_key err then (true, (remove_key s key).2)
  else (false, s)

/-! ## The retry loop of `IaProcessor.analisar_com_gemini`

`max_tentativas = rotator.get_total_capacity() + 2`; the `while` loop
consumes one attempt per iteration.  The embedding covers the allocator
side of the loop: when `select_and_reserve_best_slot` yields no slot the
body sleeps and retries, and exhaustion raises `GeminiServiceException`.
An iteration that obtains a slot would hand off to the external generation
call, outside the core. -/

inductive LoopOutcome
  | raised
  | invoked (key model tier : String)
  deriving Repr, DecidableEq

/-- The retry loop restricted to the no-slot path: `fuel` is the number of
attempts remaining (`max_tentativas - tentativa_atual`).  Returns the
number of iterations performed and the outcome. -/
def retryLoop (ct : Nat) (mv : Option String) (fp ff : Bool) :
    Nat → RotState → Nat × LoopOutcome × RotState
  | 0, s => (0, LoopOutcome.raised, s)
  | fuel + 1, s =>
    match select_and_reserve_best_slot s ct mv fp ff with
    | (some (k, m, t), s') => (1, LoopOutcome.invoked k m t, s')
    | (none, s') =>
      let r := retryLoop ct mv fp ff fuel s'
      (r.1 + 1, r.2)

/-- Attempt budget of `analisar_com_gemini`. -/
def max_tentativas (s : RotState) : Nat := get_total_capacity s + 2

/-! ## Predicates and concrete states used by the verification -/

/-- All fields except the two bookkeeping maps (`active_slots`,
`suspended_until`) agree. -/
def sameConfig (s s' : RotState) : Prop :=
  s'.free_keys = s.free_keys ∧ s'.paid_keys = s.paid_keys ∧
  s'.all_keys_count = s.all_keys_count ∧ s'.models = s.models ∧
  s'.model_limits = s.model_limits ∧ s'.models_by_key = s.models_by_key ∧
  s'.free_index = s.free_index ∧ s'.paid_index = s.paid_index

/-- Invariant of claim C1: every (credential, model) active count is within
its configured limit (counts are `Nat`, hence never negative). -/
def CountInv (s : RotState) : Prop := ∀ k m, getCount s k m ≤ limitOf s m

/-- Executable sufficient check for `CountInv` on concrete states. -/
def countInvB (s : RotState) : Bool :=
  s.active_slots.all (fun kv => kv.2.all (fun mc => mc.2 ≤ limitOf s mc.1))

/-- The spec's words for the daily-quota deadline: the next 08:00 UTC
boundary after `t` — today's boundary (second 28800 of the day) when `t` is
before 08:00 UTC, otherwise tomorrow's. -/
def specNextBoundary (t : Nat) : Nat :=
  if t % 86400 < 28800 then (t / 86400) * 86400 + 28800
  else (t / 86400 + 1) * 86400 + 28800

/-- State: 2 free + 1 paid credentials, 2 models of limit 1, every slot taken. -/
def stateAllBusy : RotState :=
  { free_keys := ["f1", "f2"], paid_keys := ["p1"], all_keys_count := 3,
    models := ["m1", "m2"], model_limits := [("m1", 1), ("m2", 1)],
    active_slots := [("f1", [("m1", 1), ("m2", 1)]), ("f2", [("m1", 1), ("m2", 1)]),
      ("p1", [("m1", 1), ("m2", 1)])],
    suspended_until := [("f1", []), ("f2", []), ("p1", [])],
    models_by_key := [("f1", ["m1", "m2"]), ("f2", ["m1", "m2"]), ("p1", ["m1", "m2"])],
    free_index := 0, paid_index := 0 }

/-- Two free credentials, first fully busy, cursor at 0: the admissible
credential sits at index 1, away from the cursor. -/
def stateSecondFree : RotState :=
  { free_keys := ["k0", "k1"], paid_keys := [], all_keys_count := 2,
    models := ["m"], model_limits := [("m", 1)],
    active_slots := [("k0", [("m", 1)]), ("k1", [("m", 0)])],
    suspended_until := [("k0", []), ("k1", [])],
    models_by_key := [("k0", ["m"]), ("k1", ["m"])],
    free_index := 0, paid_index := 0 }

/-- One free credential with slot and suspension state present. -/
def stateOneKey : RotState :=
  { free_keys := ["a"], paid_keys := [], all_keys_count := 1,
    models := ["m"], model_limits := [("m", 1)],
    active_slots := [("a", [("m", 0)])],
    suspended_until := [("a", [("m", 500)])],
    models_by_key := [("a", ["m"])],
    free_index := 0, paid_index := 0 }

/-- Three free credentials with the rotation cursor at 2 (as after two
successful allocations). -/
def stateThreeKeys : RotState :=
  { free_keys := ["a", "b", "c"], paid_keys := [], all_keys_count := 3,
    models := ["m"], model_limits := [("m", 1)],
    active_slots := [("a", [("m", 0)]), ("b", [("m", 0)]), ("c", [("m", 0)])],
    suspended_until := [("a", []), ("b", []), ("c", [])],
    models_by_key := [("a", ["m"]), ("b", ["m"]), ("c", ["m"])],
    free_index := 2, paid_index := 0 }

/-- One busy free credential and one idle paid credential. -/
def stateFreeBusy : RotState :=
  { free_keys := ["f"], paid_keys := ["p"], all_keys_count := 2,
    models := ["m"], model_limits := [("m", 1)],
    active_slots := [("f", [("m", 1)]), ("p", [("m", 0)])],
    suspended_until := [("f", []), ("p", [])],
    models_by_key := [("f", ["m"]), ("p", ["m"])],
    free_index := 0, paid_index := 0 }

/-! ## Basic lemmas about the state operations -/

theorem alookup_aset_self {α : Type} (k : String) (v : α) (l : List (String × α)) :
    alookup k (aset k v l) = some v := by
  induction l with
  | nil => simp [aset, alookup]
  | cons hd tl ih =>
    obtain ⟨k', v'⟩ := hd
    by_cases h : k' = k <;> simp [aset, alookup, h, ih]

theorem alookup_aset_ne {α : Type} (k j : String) (v : α) (l : List (String × α))
    (hne : j ≠ k) : alookup j (aset k v l) = alookup j l := by
  induction l with
  | nil => simp [aset, alookup, hne, Ne.symm hne]
  | cons hd tl ih =>
    obtain ⟨k', v'⟩ := hd
    by_cases h : k' = k
    · subst h
      simp [aset, alookup, Ne.symm hne]
    · by_cases h2 : k' = j <;> simp [aset, alookup, h, h2, hne, ih]

theorem alookup_aerase_ne {α : Type} (k j : String) (l : List (String × α))
    (hne : j ≠ k) : alookup j (aerase k l) = alookup j l := by
  induction l with
  | nil => simp [aerase, alookup]
  | cons hd tl ih =>
    obtain ⟨k', v'⟩ := hd
    by_cases h : k' = k
    · subst h
      simp [aerase, alookup, Ne.symm hne]
    · by_cases h2 : k' = j <;> simp [aerase, alookup, h, h2, hne, ih]

/-- Lookups only return stored entries. -/
theorem alookup_mem {α : Type} (k : String) (v : α) (l : List (String × α))
    (h : alookup k l = some v) : (k, v) ∈ l := by
  induction l with
  | nil => simp [alookup] at h
  | cons hd tl ih =>
    obtain ⟨k', v'⟩ := hd
    by_cases hk : k' = k
    · subst hk
      simp only [alookup, if_pos rfl] at h
      obtain rfl : v' = v := by simpa using h
      exact List.mem_cons_self _ _
    · simp only [alookup, if_neg hk] at h
      exact List.mem_cons_of_mem _ (ih h)

/-- Soundness of the executable invariant check `countInvB`. -/
theorem countInvB_correct (s : RotState) (h : countInvB s = true) : CountInv s := by
  intro k m
  unfold getCount
  cases h1 : alookup k s.active_slots with
  | none => simp [alookup]
  | some inner =>
    cases h2 : alookup m inner with
    | none => simp [h2]
    | some c =>
      simp only [Option.getD_some, h2]
      have hmem1 : (k, inner) ∈ s.active_slots := alookup_mem _ _ _ h1
      have hmem2 : (m, c) ∈ inner := alookup_mem _ _ _ h2
      have := (List.all_eq_true.mp h) _ hmem1
      have := (List.all_eq_true.mp this) _ hmem2
      simpa using this

theorem sameConfig_refl (s : RotState) : sameConfig s s :=
  ⟨rfl, rfl, rfl, rfl, rfl, rfl, rfl, rfl⟩

theorem sameConfig_trans {s1 s2 s3 : RotState} (h12 : sameConfig s1 s2)
    (h23 : sameConfig s2 s3) : sameConfig s1 s3 := by
  obtain ⟨a1, a2, a3, a4, a5, a6, a7, a8⟩ := h12
  obtain ⟨b1, b2, b3, b4, b5, b6, b7, b8⟩ := h23
  exact ⟨b1.trans a1, b2.trans a2, b3.trans a3, b4.trans a4,
    b5.trans a5, b6.trans a6, b7.trans a7, b8.trans a8⟩

theorem limitOf_congr {s s' : RotState} (h : s'.model_limits = s.model_limits)
    (m : String) : limitOf s' m = limitOf s m := by
  simp [limitOf, h]

theorem getCount_suspSet (s : RotState) (x : List (String × List (String × Nat)))
    (k m : String) : getCount { s with suspended_until := x } k m = getCount s k m := rfl

theorem limitOf_suspSet (s : RotState) (x : List (String × List (String × Nat)))
    (m : String) : limitOf { s with suspended_until := x } m = limitOf s m := rfl

theorem getCount_setCount_self (s : RotState) (k m : String) (n : Nat) :
    getCount (setCount s k m n) k m = n := by
  simp [getCount, setCount, alookup_aset_self]

theorem getCount_setCount_ne (s : RotState) (k m k' m' : String) (n : Nat)
    (h : k' ≠ k ∨ m' ≠ m) : getCount (setCount s k m n) k' m' = getCount s k' m' := by
  rcases h with h | h
  · simp [getCount, setCount, alookup_aset_ne _ _ _ _ h]
  · by_cases hk : k' = k
    · subst hk
      simp [getCount, setCount, alookup_aset_self, alookup_aset_ne _ _ _ _ h]
    · simp [getCount, setCount, alookup_aset_ne _ _ _ _ hk]

/-! ### `tryModels` structure lemmas -/

theorem tryModels_config (ms : List String) (s : RotState) (key : String) (ct : Nat)
    (mv : Option String) : sameConfig s (tryModels s key ct mv ms).2 := by
  induction ms generalizing s with
  | nil => exact sameConfig_refl s
  | cons model rest ih =>
    simp only [tryModels]
    split
    · exact ih s
    · split
      · split
        · exact ih s
        · split
          · exact sameConfig_refl _
          · exact sameConfig_trans (sameConfig_refl _) (ih _)
      · split
        · exact sameConfig_refl _
        · exact ih s

theorem tryModels_none_active (ms : List String) (s : RotState) (key : String) (ct : Nat)
    (mv : Option String) (h : (tryModels s key ct mv ms).1 = none) :
    (tryModels s key ct mv ms).2.active_slots = s.active_slots := by
  induction ms generalizing s with
  | nil => rfl
  | cons model rest ih =>
    by_cases hv : skipVariant mv model = true
    · simp only [tryModels, hv, if_true] at h ⊢
      exact ih s h
    · cases hsusp : alookup model ((alookup key s.suspended_until).getD []) with
      | some ts =>
        by_cases hct : ct < ts
        · simp only [tryModels, hv, hsusp, hct] at h ⊢
          simp only [if_true, Bool.false_eq_true, if_false] at h ⊢
          exact ih s h
        · by_cases hcnt : getCount s key model < limitOf s model
          · exfalso
            simp [tryModels, hv, hsusp, hct, hcnt, getCount_suspSet, limitOf_suspSet] at h
          · simp only [tryModels, hv, hsusp, hct, getCount_suspSet, limitOf_suspSet,
              hcnt, Bool.false_eq_true, if_false] at h ⊢
            exact ih _ h
      | none =>
        by_cases hcnt : getCount s key model < limitOf s model
        · exfalso
          simp [tryModels, hv, hsusp, hcnt] at h
        · simp only [tryModels, hv, hsusp, hcnt, Bool.false_eq_true, if_false] at h ⊢
          exact ih s h

theorem tryModels_some (ms : List String) (s : RotState) (key : String) (ct : Nat)
    (mv : Option String) (m : String) (h : (tryModels s key ct mv ms).1 = some m) :
    getCount s key m < limitOf s m ∧
    getCount (tryModels s key ct mv ms).2 key m = getCount s key m + 1 ∧
    (∀ k' m', k' ≠ key ∨ m' ≠ m →
      getCount (tryModels s key ct mv ms).2 k' m' = getCount s k' m') := by
  induction ms generalizing s with
  | nil => simp [tryModels] at h
  | cons model rest ih =>
    by_cases hv : skipVariant mv model = true
    · simp only [tryModels, hv, if_true] at h ⊢
      exact ih s h
    · cases hsusp : alookup model ((alookup key s.suspended_until).getD []) with
      | some ts =>
        by_cases hct : ct < ts
        · simp only [tryModels, hv, hsusp, hct] at h ⊢
          simp only [if_true, Bool.false_eq_true, if_false] at h ⊢
          exact ih s h
        · by_cases hcnt : getCount s key model < limitOf s model
          · have hm : model = m := by
              simp [tryModels, hv, hsusp, hct, hcnt, getCount_suspSet, limitOf_suspSet] at h
              exact h
            subst hm
            refine ⟨hcnt, ?_, ?_⟩
            · simp only [tryModels, hv, hsusp, hct, getCount_suspSet, limitOf_suspSet,
                hcnt, Bool.false_eq_true, if_false, if_true]
              simp [getCount_setCount_self, getCount_suspSet]
            · intro k' m' hne
              simp only [tryModels, hv, hsusp, hct, getCount_suspSet, limitOf_suspSet,
                hcnt, Bool.false_eq_true, if_false, if_true]
              simp [getCount_setCount_ne _ _ _ _ _ _ hne, getCount_suspSet]
          · simp only [tryModels, hv, hsusp, hct, getCount_suspSet, limitOf_suspSet,
              hcnt, Bool.false_eq_true, if_false] at h ⊢
            exact ih _ h
      | none =>
        by_cases hcnt : getCount s key model < limitOf s model
        · have hm : model = m := by
            simp [tryModels, hv, hsusp, hcnt] at h
            exact h
          subst hm
          refine ⟨hcnt, ?_, ?_⟩
          · simp only [tryModels, hv, hsusp, hcnt, Bool.false_eq_true, if_false, if_true]
            simp [getCount_setCount_self]
          · intro k' m' hne
            simp only [tryModels, hv, hsusp, hcnt, Bool.false_eq_true, if_false, if_true]
            exact getCount_setCount_ne _ _ _ _ _ _ hne
        · simp only [tryModels, hv, hsusp, hcnt, Bool.false_eq_true, if_false] at h ⊢
          exact ih s h

/-! ### `findSlotGo` / `find_slot_in_list` structure lemmas -/

theorem findSlotGo_cons (keys_list : List String) (ct : Nat) (mv : Option String)
    (s : RotState) (idx : Nat) (restIdx : List Nat) :
    findSlotGo keys_list ct mv s (idx :: restIdx) =
      match tryModels s (keys_list.getD idx "") ct mv
          ((alookup (keys_list.getD idx "") s.models_by_key).getD []) with
      | (some model, s') => (some (keys_list.getD idx "", model), s')
      | (none, s') => findSlotGo keys_list ct mv s' restIdx := rfl

theorem findSlotGo_config (idxs : List Nat) (keys_list : List String) (ct : Nat)
    (mv : Option String) (s : RotState) :
    sameConfig s (findSlotGo keys_list ct mv s idxs).2 := by
  induction idxs generalizing s with
  | nil => exact sameConfig_refl s
  | cons idx restIdx ih =>
    rw [findSlotGo_cons]
    cases htry : tryModels s (keys_list.getD idx "") ct mv
        ((alookup (keys_list.getD idx "") s.models_by_key).getD []) with
    | mk r s' =>
      have hcfg : sameConfig s s' := by
        have := tryModels_config ((alookup (keys_list.getD idx "") s.models_by_key).getD [])
          s (keys_list.getD idx "") ct mv
        rwa [htry] at this
      cases r with
      | some model => exact hcfg
      | none => exact sameConfig_trans hcfg (ih s')

theorem findSlotGo_none_active (idxs : List Nat) (keys_list : List String) (ct : Nat)
    (mv : Option String) (s : RotState)
    (h : (findSlotGo keys_list ct mv s idxs).1 = none) :
    (findSlotGo keys_list ct mv s idxs).2.active_slots = s.active_slots := by
  induction idxs generalizing s with
  | nil => rfl
  | cons idx restIdx ih =>
    revert h
    rw [findSlotGo_cons]
    cases htry : tryModels s (keys_list.getD idx "") ct mv
        ((alookup (keys_list.getD idx "") s.models_by_key).getD []) with
    | mk r s' =>
      cases r with
      | some model =>
        intro h
        simp at h
      | none =>
        intro h
        have h1 : s'.active_slots = s.active_slots := by
          have := tryModels_none_active
            ((alookup (keys_list.getD idx "") s.models_by_key).getD []) s
            (keys_list.getD idx "") ct mv (by rw [htry])
          rwa [htry] at this
        exact (ih s' h).trans h1

theorem findSlotGo_some (idxs : List Nat) (keys_list : List String) (ct : Nat)
    (mv : Option String) (s : RotState) (k m : String)
    (h : (findSlotGo keys_list ct mv s idxs).1 = some (k, m)) :
    getCount s k m < limitOf s m ∧
    getCount (findSlotGo keys_list ct mv s idxs).2 k m = getCount s k m + 1 ∧
    (∀ k' m', k' ≠ k ∨ m' ≠ m →
      getCount (findSlotGo keys_list ct mv s idxs).2 k' m' = getCount s k' m') := by
  induction idxs generalizing s with
  | nil => simp [findSlotGo] at h
  | cons idx restIdx ih =>
    revert h
    rw [findSlotGo_cons]
    cases htry : tryModels s (keys_list.getD idx "") ct mv
        ((alookup (keys_list.getD idx "") s.models_by_key).getD []) with
    | mk r s' =>
      cases r with
      | some model =>
        intro h
        obtain ⟨hk, hm⟩ : keys_list.getD idx "" = k ∧ model = m := by
          simpa using h
        subst hk; subst hm
        have := tryModels_some ((alookup (keys_list.getD idx "") s.models_by_key).getD [])
          s (keys_list.getD idx "") ct mv model (by rw [htry])
        rwa [htry] at this
      | none =>
        intro h
        have hact : s'.active_slots = s.active_slots := by
          have := tryModels_none_active
            ((alookup (keys_list.getD idx "") s.models_by_key).getD []) s
            (keys_list.getD idx "") ct mv (by rw [htry])
          rwa [htry] at this
        have hlim : ∀ m', limitOf s' m' = limitOf s m' := by
          intro m'
          have hcfg := tryModels_config
            ((alookup (keys_list.getD idx "") s.models_by_key).getD []) s
            (keys_list.getD idx "") ct mv
          rw [htry] at hcfg
          exact limitOf_congr hcfg.2.2.2.2.1 m'
        have hcnt : ∀ k' m', getCount s' k' m' = getCount s k' m' := by
          intro k' m'
          simp [getCount, hact]
        obtain ⟨h1, h2, h3⟩ := ih s' h
        have h1' : getCount s k m < limitOf s m := by
          rw [← hcnt k m, ← hlim m]; exact h1
        have h2' : getCount (findSlotGo keys_list ct mv s' restIdx).2 k m =
            getCount s k m + 1 := by
          rw [← hcnt k m]; exact h2
        have h3' : ∀ k' m', k' ≠ k ∨ m' ≠ m →
            getCount (findSlotGo keys_list ct mv s' restIdx).2 k' m' = getCount s k' m' :=
          fun k' m' hne => (h3 k' m' hne).trans (hcnt k' m')
        exact ⟨h1', h2', h3'⟩

theorem find_slot_config (s : RotState) (keys_list : List String) (start ct : Nat)
    (mv : Option String) :
    sameConfig s (find_slot_in_list s keys_list start ct mv).2 := by
  simp only [find_slot_in_list]
  by_cases h0 : keys_list.length = 0
  · rw [if_pos h0]
    exact sameConfig_refl s
  · rw [if_neg h0]
    exact findSlotGo_config _ _ _ _ _

theorem find_slot_none_active (s : RotState) (keys_list : List String) (start ct : Nat)
    (mv : Option String) (h : (find_slot_in_list s keys_list start ct mv).1 = none) :
    (find_slot_in_list s keys_list start ct mv).2.active_slots = s.active_slots := by
  revert h
  simp only [find_slot_in_list]
  by_cases h0 : keys_list.length = 0
  · rw [if_pos h0]
    intro _
    rfl
  · rw [if_neg h0]
    intro h
    exact findSlotGo_none_active _ _ _ _ _ h

theorem find_slot_some (s : RotState) (keys_list : List String) (start ct : Nat)
    (mv : Option String) (k m : String)
    (h : (find_slot_in_list s keys_list start ct mv).1 = some (k, m)) :
    getCount s k m < limitOf s m ∧
    getCount (find_slot_in_list s keys_list start ct mv).2 k m = getCount s k m + 1 ∧
    (∀ k' m', k' ≠ k ∨ m' ≠ m →
      getCount (find_slot_in_list s keys_list start ct mv).2 k' m' = getCount s k' m') := by
  revert h
  simp only [find_slot_in_list]
  by_cases h0 : keys_list.length = 0
  · rw [if_pos h0]
    intro h
    simp at h
  · rw [if_neg h0]
    intro h
    exact findSlotGo_some _ _ _ _ _ _ _ h

/-! ### The count invariant -/

theorem CountInv_free_index (s : RotState) (x : Nat) (h : CountInv s) :
    CountInv { s with free_index := x } := fun k m => h k m

theorem CountInv_paid_index (s : RotState) (x : Nat) (h : CountInv s) :
    CountInv { s with paid_index := x } := fun k m => h k m

theorem CountInv_after_find (t : RotState) (keys : List String) (start ct : Nat)
    (mv : Option String) (hinv : CountInv t) :
    CountInv (find_slot_in_list t keys start ct mv).2 := by
  have hcfg := find_slot_config t keys start ct mv
  have hlim : ∀ m', limitOf (find_slot_in_list t keys start ct mv).2 m' = limitOf t m' :=
    fun m' => limitOf_congr hcfg.2.2.2.2.1 m'
  cases hr : (find_slot_in_list t keys start ct mv).1 with
  | none =>
    have hact := find_slot_none_active t keys start ct mv hr
    intro k' m'
    rw [hlim m']
    have : getCount (find_slot_in_list t keys start ct mv).2 k' m' = getCount t k' m' := by
      simp [getCount, hact]
    rw [this]
    exact hinv k' m'
  | some km =>
    obtain ⟨k, m⟩ := km
    obtain ⟨h1, h2, h3⟩ := find_slot_some t keys start ct mv k m hr
    intro k' m'
    rw [hlim m']
    by_cases hk : k' = k
    · by_cases hm : m' = m
      · subst hk; subst hm
        rw [h2]
        exact h1
      · rw [h3 k' m' (Or.inr hm)]
        exact hinv k' m'
    · rw [h3 k' m' (Or.inl hk)]
      exact hinv k' m'

theorem select_preserves_CountInv (s : RotState) (ct : Nat) (mv : Option String)
    (fp ff : Bool) (hinv : CountInv s) :
    CountInv (select_and_reserve_best_slot s ct mv fp ff).2 := by
  have paidStep : ∀ t : RotState, CountInv t →
      CountInv (if ff then ((none : Option (String × String × String)), t)
        else
          match find_slot_in_list t t.paid_keys t.paid_index ct mv with
          | (some (k, m), s2) =>
            (some (k, m, "paid"), { s2 with paid_index := (s2.paid_index + 1) % s2.paid_keys.length })
          | (none, s2) => (none, s2)).2 := by
    intro t ht
    by_cases hff : ff
    · rw [if_pos hff]
      exact ht
    · rw [if_neg hff]
      cases hfr : find_slot_in_list t t.paid_keys t.paid_index ct mv with
      | mk r s2 =>
        have hs2 : CountInv s2 := by
          have := CountInv_after_find t t.paid_keys t.paid_index ct mv ht
          rwa [hfr] at this
        cases r with
        | some km =>
          obtain ⟨k, m⟩ := km
          exact CountInv_paid_index s2 _ hs2
        | none => exact hs2
  simp only [select_and_reserve_best_slot]
  by_cases hfp : fp
  · rw [if_pos hfp]
    exact paidStep s hinv
  · rw [if_neg hfp]
    cases hfr : find_slot_in_list s s.free_keys s.free_index ct mv with
    | mk r s1 =>
      have hs1 : CountInv s1 := by
        have := CountInv_after_find s s.free_keys s.free_index ct mv hinv
        rwa [hfr] at this
      cases r with
      | some km =>
        obtain ⟨k, m⟩ := km
        exact CountInv_free_index s1 _ hs1
      | none => exact paidStep s1 hs1

/-! ### Field preservation for the remaining operations -/

theorem suspender_modelo_fields (s : RotState) (ct : Nat) (k m : String) (sec : Nat) :
    (suspender_modelo s ct k m sec).active_slots = s.active_slots ∧
    (suspender_modelo s ct k m sec).model_limits = s.model_limits ∧
    (suspender_modelo s ct k m sec).free_keys = s.free_keys ∧
    (suspender_modelo s ct k m sec).paid_keys = s.paid_keys ∧
    (suspender_modelo s ct k m sec).models_by_key = s.models_by_key := by
  simp only [suspender_modelo]
  split
  · exact ⟨rfl, rfl, rfl, rfl, rfl⟩
  · split
    · split
      · exact ⟨rfl, rfl, rfl, rfl, rfl⟩
      · exact ⟨rfl, rfl, rfl, rfl, rfl⟩
    · exact ⟨rfl, rfl, rfl, rfl, rfl⟩

theorem tratar_erro_429_fields (s : RotState) (ct : Nat) (k m e : String) :
    (tratar_erro_429 s ct k m e).active_slots = s.active_slots ∧
    (tratar_erro_429 s ct k m e).model_limits = s.model_limits ∧
    (tratar_erro_429 s ct k m e).free_keys = s.free_keys ∧
    (tratar_erro_429 s ct k m e).paid_keys = s.paid_keys ∧
    (tratar_erro_429 s ct k m e).models_by_key = s.models_by_key :=
  suspender_modelo_fields s ct k m _

theorem remove_key_fields (s : RotState) (k : String) :
    (remove_key s k).2.active_slots = s.active_slots ∧
    (remove_key s k).2.suspended_until = s.suspended_until ∧
    (remove_key s k).2.models_by_key = s.models_by_key ∧
    (remove_key s k).2.model_limits = s.model_limits ∧
    (remove_key s k).2.free_index = s.free_index ∧
    (remove_key s k).2.paid_index = s.paid_index := by
  simp only [remove_key]
  split
  · exact ⟨rfl, rfl, rfl, rfl, rfl, rfl⟩
  · split
    · exact ⟨rfl, rfl, rfl, rfl, rfl, rfl⟩
    · exact ⟨rfl, rfl, rfl, rfl, rfl, rfl⟩

theorem CountInv_of_fields {s s' : RotState} (hact : s'.active_slots = s.active_slots)
    (hlim : s'.model_limits = s.model_limits) (h : CountInv s) : CountInv s' := by
  intro k m
  have h1 : getCount s' k m = getCount s k m := by simp [getCount, hact]
  have h2 : limitOf s' m = limitOf s m := limitOf_congr hlim m
  rw [h1, h2]
  exact h k m

theorem liberar_preserves_CountInv (s : RotState) (k m : String) (hinv : CountInv s) :
    CountInv (liberar_slot_model s k m) := by
  cases h1 : alookup k s.active_slots with
  | none =>
    simp only [liberar_slot_model, h1]
    exact hinv
  | some inner =>
    cases h2 : alookup m inner with
    | none =>
      simp only [liberar_slot_model, h1, h2]
      exact hinv
    | some c =>
      simp only [liberar_slot_model, h1, h2]
      by_cases hc : c > 0
      · rw [if_pos hc]
        intro k' m'
        have hlim : limitOf { s with active_slots := aset k (aset m (c - 1) inner) s.active_slots } m'
            = limitOf s m' := rfl
        rw [hlim]
        by_cases hk : k' = k
        · subst hk
          by_cases hm : m' = m
          · subst hm
            have : getCount { s with active_slots := aset k' (aset m' (c - 1) inner) s.active_slots } k' m' = c - 1 := by
              simp [getCount, alookup_aset_self]
            rw [this]
            have hle : c ≤ limitOf s m' := by
              have := hinv k' m'
              simpa [getCount, h1, h2] using this
            omega
          · have : getCount { s with active_slots := aset k' (aset m (c - 1) inner) s.active_slots } k' m'
                = getCount s k' m' := by
              simp [getCount, alookup_aset_self, alookup_aset_ne _ _ _ _ hm, h1]
            rw [this]
            exact hinv k' m'
        · have : getCount { s with active_slots := aset k (aset m (c - 1) inner) s.active_slots } k' m'
              = getCount s k' m' := by
            simp [getCount, alookup_aset_ne _ _ _ _ hk]
          rw [this]
          exact hinv k' m'
      · rw [if_neg hc]
        exact hinv

/-! ### Behaviour of `liberar_slot_model` -/

theorem liberar_zero (s : RotState) (k m : String) (h : getCount s k m = 0) :
    liberar_slot_model s k m = s := by
  cases h1 : alookup k s.active_slots with
  | none => simp [liberar_slot_model, h1]
  | some inner =>
    cases h2 : alookup m inner with
    | none => simp [liberar_slot_model, h1, h2]
    | some c =>
      have hc : c = 0 := by
        have : getCount s k m = c := by simp [getCount, h1, h2]
        omega
      subst hc
      simp [liberar_slot_model, h1, h2]

theorem liberar_decrement (s : RotState) (k m : String) (h : 0 < getCount s k m) :
    getCount (liberar_slot_model s k m) k m = getCount s k m - 1 := by
  cases h1 : alookup k s.active_slots with
  | none => exact absurd h (by simp [getCount, h1, alookup])
  | some inner =>
    cases h2 : alookup m inner with
    | none => exact absurd h (by simp [getCount, h1, h2])
    | some c =>
      have hgc : getCount s k m = c := by simp [getCount, h1, h2]
      have hc : 0 < c := by omega
      have hstate : liberar_slot_model s k m = setCount s k m (c - 1) := by
        simp [liberar_slot_model, h1, h2, hc, setCount]
      rw [hstate, getCount_setCount_self, hgc]

/-! ### The retry loop under permanent exhaustion -/

theorem retryLoop_none (s : RotState) (ct : Nat) (mv : Option String) (fp ff : Bool)
    (hsel : select_and_reserve_best_slot s ct mv fp ff = (none, s)) :
    ∀ fuel, retryLoop ct mv fp ff fuel s = (fuel, LoopOutcome.raised, s) := by
  intro fuel
  induction fuel with
  | zero => rfl
  | succ n ih => simp only [retryLoop, hsel, ih]

/-! ### Unfolding equations for `select_and_reserve_best_slot` -/

theorem select_eq_free_branch (s : RotState) (ct : Nat) (mv : Option String) (ff : Bool) :
    select_and_reserve_best_slot s ct mv false ff =
      match find_slot_in_list s s.free_keys s.free_index ct mv with
      | (some (k, m), s1) =>
        (some (k, m, "free"), { s1 with free_index := (s1.free_index + 1) % s1.free_keys.length })
      | (none, s1) =>
        if ff then (none, s1)
        else
          match find_slot_in_list s1 s1.paid_keys s1.paid_index ct mv with
          | (some (k, m), s2) =>
            (some (k, m, "paid"), { s2 with paid_index := (s2.paid_index + 1) % s2.paid_keys.length })
          | (none, s2) => (none, s2) := rfl

theorem select_eq_paid_branch (s : RotState) (ct : Nat) (mv : Option String) (ff : Bool) :
    select_and_reserve_best_slot s ct mv true ff =
      (if ff then (none, s)
       else
         match find_slot_in_list s s.paid_keys s.paid_index ct mv with
         | (some (k, m), s2) =>
           (some (k, m, "paid"), { s2 with paid_index := (s2.paid_index + 1) % s2.paid_keys.length })
         | (none, s2) => (none, s2)) := rfl

/-! ## Claim theorems -/

/-- C1: for every (credential, model) pair with configured limit the active
count stays within [0, limit] across every allocator operation — selection
increments only strictly below the limit, every other operation leaves
counts bounded, and `liberar_slot_model` decrements by exactly one when the
count is positive and is a no-op at zero (counts are `Nat`, hence never
negative). -/
theorem C1_count_invariant (s : RotState) (hinv : CountInv s) :
    (∀ ct mv fp ff, CountInv (select_and_reserve_best_slot s ct mv fp ff).2) ∧
    (∀ k m, CountInv (liberar_slot_model s k m)) ∧
    (∀ ct k m sec, CountInv (suspender_modelo s ct k m sec)) ∧
    (∀ k, CountInv (remove_key s k).2) ∧
    (∀ ct k m e, CountInv (processar_exception s ct k m e).2) ∧
    (∀ k m, getCount s k m = 0 → liberar_slot_model s k m = s) ∧
    (∀ k m, 0 < getCount s k m →
      getCount (liberar_slot_model s k m) k m = getCount s k m - 1) := by
  have hsusp : ∀ ct k m sec, CountInv (suspender_modelo s ct k m sec) := by
    intro ct k m sec
    obtain ⟨h1, h2, _⟩ := suspender_modelo_fields s ct k m sec
    exact CountInv_of_fields h1 h2 hinv
  have hrem : ∀ k, CountInv (remove_key s k).2 := by
    intro k
    obtain ⟨h1, _, _, h4, _⟩ := remove_key_fields s k
    exact CountInv_of_fields h1 h4 hinv
  refine ⟨fun ct mv fp ff => select_preserves_CountInv s ct mv fp ff hinv,
    fun k m => liberar_preserves_CountInv s k m hinv, hsusp, hrem, ?_,
    fun k m h => liberar_zero s k m h, fun k m h => liberar_decrement s k m h⟩
  intro ct k m e
  by_cases h1 : regex_429 e = true
  · have hred : (processar_exception s ct k m e).2 = tratar_erro_429 s ct k m e := by
      simp [processar_exception, h1]
    rw [hred]
    obtain ⟨ha, hb, _⟩ := tratar_erro_429_fields s ct k m e
    exact CountInv_of_fields ha hb hinv
  · by_cases h2 : regex_invalid_key e = true
    · have hred : (processar_exception s ct k m e).2 = (remove_key s k).2 := by
        simp [processar_exception, h1, h2]
      rw [hred]
      exact hrem k
    · have hred : (processar_exception s ct k m e).2 = s := by
        simp [processar_exception, h1, h2]
      rw [hred]
      exact hinv

/-- Witness for C1 at a concrete state. -/
theorem C1_count_invariant_witness :
    liberar_slot_model stateSecondFree "k1" "m" = stateSecondFree :=
  (C1_count_invariant stateSecondFree
    (countInvB_correct _ (by decide))).2.2.2.2.2.1 "k1" "m" (by decide)

/-- C3: when no slot is ever free (selection always returns none and leaves
the state unchanged) the retry loop of `analisar_com_gemini` performs exactly
`get_total_capacity() + 2` attempts and then raises the single generic
service-overloaded failure. -/
theorem C3_retry_bound (s : RotState) (ct : Nat) (mv : Option String) (fp ff : Bool)
    (hsel : select_and_reserve_best_slot s ct mv fp ff = (none, s)) :
    (retryLoop ct mv fp ff (max_tentativas s) s).1 = get_total_capacity s + 2 ∧
    (retryLoop ct mv fp ff (max_tentativas s) s).2.1 = LoopOutcome.raised := by
  rw [retryLoop_none s ct mv fp ff hsel (max_tentativas s)]
  exact ⟨rfl, rfl⟩

/-- Witness for C3: 2 free + 1 paid credentials and 2 models, all busy —
capacity 6, exactly 8 iterations, then the raise. -/
theorem C3_retry_bound_witness :
    get_total_capacity stateAllBusy = 6 ∧
    (retryLoop 100 none false false (max_tentativas stateAllBusy) stateAllBusy).1 = 8 ∧
    (retryLoop 100 none false false (max_tentativas stateAllBusy) stateAllBusy).2.1 =
      LoopOutcome.raised := by
  have h := C3_retry_bound stateAllBusy 100 none false false (by decide)
  exact ⟨by decide, h.1.trans (by decide), h.2⟩

/-- C5: suspensions never shorten — for a pair with model state present, the
deadline after `suspender_modelo` is the maximum of the existing deadline
(0 when absent) and `now + seconds`, so a later shorter suspension leaves an
existing later deadline in effect. -/
theorem C5_suspension_monotone (s : RotState) (ct : Nat) (k m : String) (sec : Nat)
    (hk : (alookup k s.models_by_key).isSome = true) :
    getSusp (suspender_modelo s ct k m sec) k m =
      some (max ((getSusp s k m).getD 0) (ct + sec)) := by
  have hnone : (alookup k s.models_by_key).isNone = false := by
    cases hmb : alookup k s.models_by_key
    · rw [hmb] at hk
      simp at hk
    · simp
  have hupd : getSusp { s with suspended_until := aset k (aset m (ct + sec)
      ((alookup k s.suspended_until).getD [])) s.suspended_until } k m = some (ct + sec) := by
    show alookup m ((alookup k (aset k (aset m (ct + sec)
      ((alookup k s.suspended_until).getD [])) s.suspended_until)).getD []) = some (ct + sec)
    rw [alookup_aset_self]
    exact alookup_aset_self m (ct + sec) _
  cases hsm : alookup m ((alookup k s.suspended_until).getD []) with
  | some old =>
    have hgs : getSusp s k m = some old := hsm
    by_cases hgt : old > ct + sec
    · have hred : suspender_modelo s ct k m sec = s := by
        simp [suspender_modelo, hnone, hsm, hgt]
      rw [hred, hgs]
      simp only [Option.getD_some]
      rw [max_eq_left (by omega)]
    · have hred : suspender_modelo s ct k m sec =
          { s with suspended_until := aset k (aset m (ct + sec)
            ((alookup k s.suspended_until).getD [])) s.suspended_until } := by
        simp [suspender_modelo, hnone, hsm, hgt]
      rw [hred, hupd, hgs]
      simp only [Option.getD_some]
      rw [max_eq_right (by omega)]
  | none =>
    have hgs : getSusp s k m = none := hsm
    have hred : suspender_modelo s ct k m sec =
        { s with suspended_until := aset k (aset m (ct + sec)
          ((alookup k s.suspended_until).getD [])) s.suspended_until } := by
      simp [suspender_modelo, hnone, hsm]
    rw [hred, hupd, hgs]
    simp only [Option.getD_none]
    rw [max_eq_right (Nat.zero_le _)]

/-- Witness for C5: suspending for 60s then 30s leaves the 60s deadline. -/
theorem C5_suspension_monotone_witness :
    getSusp (suspender_modelo stateAllBusy 1000 "f1" "m1" 60) "f1" "m1" = some 1060 ∧
    getSusp (suspender_modelo (suspender_modelo stateAllBusy 1000 "f1" "m1" 60)
      1000 "f1" "m1" 30) "f1" "m1" = some 1060 := by
  have h := C5_suspension_monotone stateAllBusy 1000 "f1" "m1" 60 (by decide)
  exact ⟨h.trans (by decide), by decide⟩

/-- C6: the daily-quota suspension duration equals the seconds from the
current time to the next 08:00 UTC boundary (today's when before 08:00 UTC,
else tomorrow's) plus the 300-second margin; at 09:00 UTC it is 23h + 300s
and at 07:00 UTC it is 1h + 300s. -/
theorem C6_daily_quota_seconds (t : Nat) :
    calcular_segundos_ate_renovacao t = (specNextBoundary t - t) + 300 ∧
    calcular_segundos_ate_renovacao 32400 = 23 * 3600 + 300 ∧
    calcular_segundos_ate_renovacao 25200 = 1 * 3600 + 300 := by
  refine ⟨?_, by decide, by decide⟩
  simp only [calcular_segundos_ate_renovacao, specNextBoundary]
  split_ifs with h <;> omega

/-- C7: `processar_exception` returns true exactly when the error text
carries a rate-limit/exhaustion or invalid-credential signal; with neither
signal it returns false and leaves the allocator state unchanged. -/
theorem C7_record_failure_classification (s : RotState) (ct : Nat) (k m e : String) :
    ((processar_exception s ct k m e).1 = true ↔
      regex_429 e = true ∨ regex_invalid_key e = true) ∧
    (regex_429 e = false → regex_invalid_key e = false →
      processar_exception s ct k m e = (false, s)) := by
  constructor
  · by_cases h1 : regex_429 e = true
    · simp [processar_exception, h1]
    · by_cases h2 : regex_invalid_key e = true <;> simp [processar_exception, h1, h2]
  · intro h1 h2
    simp [processar_exception, h1, h2]

/-- Witness for C7: an unclassified error changes nothing. -/
theorem C7_record_failure_classification_witness :
    processar_exception stateAllBusy 0 "f1" "m1" "connection reset" = (false, stateAllBusy) :=
  (C7_record_failure_classification stateAllBusy 0 "f1" "m1" "connection reset").2
    (by decide) (by decide)

/-- C10: when an error text matches both the 429/RESOURCE_EXHAUSTED pattern
and the invalid-credential pattern, the rate-limit classification wins:
`processar_exception` takes the suspension path and both tier key lists are
left intact. -/
theorem C10_rate_limit_precedence (s : RotState) (ct : Nat) (k m e : String)
    (h429 : regex_429 e = true) (_hinv : regex_invalid_key e = true) :
    (processar_exception s ct k m e).1 = true ∧
    (processar_exception s ct k m e).2 = tratar_erro_429 s ct k m e ∧
    (processar_exception s ct k m e).2.free_keys = s.free_keys ∧
    (processar_exception s ct k m e).2.paid_keys = s.paid_keys := by
  have hred : processar_exception s ct k m e = (true, tratar_erro_429 s ct k m e) := by
    simp [processar_exception, h429]
  rw [hred]
  obtain ⟨_, _, h3, h4, _⟩ := tratar_erro_429_fields s ct k m e
  exact ⟨rfl, rfl, h3, h4⟩

/-- Witness for C10 on a doubly-matching error text. -/
theorem C10_rate_limit_precedence_witness :
    regex_429 "429 API_KEY_INVALID" = true ∧
    regex_invalid_key "429 API_KEY_INVALID" = true ∧
    (processar_exception stateAllBusy 0 "f1" "m1" "429 API_KEY_INVALID").2.free_keys =
      stateAllBusy.free_keys := by
  refine ⟨by decide, by decide, ?_⟩
  exact (C10_rate_limit_precedence stateAllBusy 0 "f1" "m1" "429 API_KEY_INVALID"
    (by decide) (by decide)).2.2.1

/-- C2: the Free tier is scanned before Paid — a Paid allocation is only
returned when the Free scan found nothing; with `forced_free` the call never
returns a Paid allocation and yields none once the Free tier is exhausted. -/
theorem C2_tier_order (s : RotState) (ct : Nat) (mv : Option String) :
    (∀ ff k m t, (select_and_reserve_best_slot s ct mv false ff).1 = some (k, m, t) →
      t = "paid" → (find_slot_in_list s s.free_keys s.free_index ct mv).1 = none) ∧
    (∀ fp k m t, (select_and_reserve_best_slot s ct mv fp true).1 = some (k, m, t) →
      t = "free") ∧
    ((find_slot_in_list s s.free_keys s.free_index ct mv).1 = none →
      (select_and_reserve_best_slot s ct mv false true).1 = none) := by
  refine ⟨?_, ?_, ?_⟩
  · intro ff k m t hsel ht
    rw [select_eq_free_branch] at hsel
    cases hfr : find_slot_in_list s s.free_keys s.free_index ct mv with
    | mk r s1 =>
      rw [hfr] at hsel
      cases r with
      | some km =>
        exfalso
        obtain ⟨k0, m0⟩ := km
        obtain ⟨-, -, hfree⟩ : k0 = k ∧ m0 = m ∧ "free" = t := by simpa using hsel
        rw [← hfree] at ht
        exact absurd ht (by decide)
      | none => rfl
  · intro fp k m t hsel
    cases fp with
    | true =>
      rw [select_eq_paid_branch] at hsel
      simp at hsel
    | false =>
      rw [select_eq_free_branch] at hsel
      cases hfr : find_slot_in_list s s.free_keys s.free_index ct mv with
      | mk r s1 =>
        rw [hfr] at hsel
        cases r with
        | some km =>
          obtain ⟨k0, m0⟩ := km
          obtain ⟨-, -, hfree⟩ : k0 = k ∧ m0 = m ∧ "free" = t := by simpa using hsel
          exact hfree.symm
        | none => simp at hsel
  · intro hfr0
    rw [select_eq_free_branch]
    cases hfr : find_slot_in_list s s.free_keys s.free_index ct mv with
    | mk r s1 =>
      rw [hfr] at hfr0
      cases r with
      | some km => simp at hfr0
      | none => simp

/-- Witness for C2: Free busy, Paid idle — `forced_free` yields none even
though an unforced call would return the Paid pair. -/
theorem C2_tier_order_witness :
    (find_slot_in_list stateFreeBusy stateFreeBusy.free_keys stateFreeBusy.free_index
      0 none).1 = none ∧
    (select_and_reserve_best_slot stateFreeBusy 0 none false true).1 = none ∧
    (select_and_reserve_best_slot stateFreeBusy 0 none false false).1 =
      some ("p", "m", "paid") := by
  refine ⟨by decide, (C2_tier_order stateFreeBusy 0 none).2.2 (by decide), by decide⟩

/-- C4 counterexample: with the admissible credential at index 1 and the
cursor at 0, the code sets the cursor to `(old cursor + 1) % size = 1`,
not to one past the found index, `(1 + 1) % 2 = 0`, as the claim states. -/
theorem C4_counterexample :
    (select_and_reserve_best_slot stateSecondFree 100 none false false).1 =
      some ("k1", "m", "free") ∧
    stateSecondFree.free_keys.getD 1 "" = "k1" ∧
    (select_and_reserve_best_slot stateSecondFree 100 none false false).2.free_index = 1 ∧
    (1 + 1) % stateSecondFree.free_keys.length ≠ 1 := by decide

/-- C4 (amended): on a hit in a tier, the found pair's active count is
incremented by one and that tier's cursor advances to one past the previous
cursor position, `(cursor + 1) % size` — not one past the found index. -/
theorem C4_cursor_advance (s : RotState) (ct : Nat) (mv : Option String) (k m : String) :
    ((find_slot_in_list s s.free_keys s.free_index ct mv).1 = some (k, m) →
      (select_and_reserve_best_slot s ct mv false false).1 = some (k, m, "free") ∧
      (select_and_reserve_best_slot s ct mv false false).2.free_index =
        (s.free_index + 1) % s.free_keys.length ∧
      getCount (select_and_reserve_best_slot s ct mv false false).2 k m =
        getCount s k m + 1) ∧
    ((find_slot_in_list s s.paid_keys s.paid_index ct mv).1 = some (k, m) →
      (select_and_reserve_best_slot s ct mv true false).1 = some (k, m, "paid") ∧
      (select_and_reserve_best_slot s ct mv true false).2.paid_index =
        (s.paid_index + 1) % s.paid_keys.length ∧
      getCount (select_and_reserve_best_slot s ct mv true false).2 k m =
        getCount s k m + 1) := by
  constructor
  · intro h
    rw [select_eq_free_branch]
    cases hfr : find_slot_in_list s s.free_keys s.free_index ct mv with
    | mk r s1 =>
      rw [hfr] at h
      cases r with
      | none => simp at h
      | some km =>
        obtain ⟨k0, m0⟩ := km
        obtain ⟨hk0, hm0⟩ : k0 = k ∧ m0 = m := by simpa using h
        subst hk0; subst hm0
        have hcfg := find_slot_config s s.free_keys s.free_index ct mv
        rw [hfr] at hcfg
        have hsome := find_slot_some s s.free_keys s.free_index ct mv k0 m0 (by rw [hfr])
        rw [hfr] at hsome
        refine ⟨rfl, ?_, ?_⟩
        · show (s1.free_index + 1) % s1.free_keys.length =
            (s.free_index + 1) % s.free_keys.length
          rw [hcfg.2.2.2.2.2.2.1, hcfg.1]
        · exact hsome.2.1
  · intro h
    rw [select_eq_paid_branch]
    rw [if_neg (by simp : ¬(false = true))]
    cases hfr : find_slot_in_list s s.paid_keys s.paid_index ct mv with
    | mk r s2 =>
      rw [hfr] at h
      cases r with
      | none => simp at h
      | some km =>
        obtain ⟨k0, m0⟩ := km
        obtain ⟨hk0, hm0⟩ : k0 = k ∧ m0 = m := by simpa using h
        subst hk0; subst hm0
        have hcfg := find_slot_config s s.paid_keys s.paid_index ct mv
        rw [hfr] at hcfg
        have hsome := find_slot_some s s.paid_keys s.paid_index ct mv k0 m0 (by rw [hfr])
        rw [hfr] at hsome
        refine ⟨rfl, ?_, ?_⟩
        · show (s2.paid_index + 1) % s2.paid_keys.length =
            (s.paid_index + 1) % s.paid_keys.length
          rw [hcfg.2.2.2.2.2.2.2, hcfg.2.1]
        · exact hsome.2.1

/-- Witness for C4 on the concrete two-credential state. -/
theorem C4_cursor_advance_witness :
    (find_slot_in_list stateSecondFree stateSecondFree.free_keys
      stateSecondFree.free_index 100 none).1 = some ("k1", "m") ∧
    (select_and_reserve_best_slot stateSecondFree 100 none false false).2.free_index =
      (stateSecondFree.free_index + 1) % stateSecondFree.free_keys.length :=
  ⟨by decide, ((C4_cursor_advance stateSecondFree 100 none "k1" "m").1 (by decide)).2.1⟩

/-- C8 counterexample: after `remove_key` the credential is out of both tier
lists, yet its active-count and suspended-until entries remain in the maps,
contradicting the claimed atomic deletion of all its state. -/
theorem C8_counterexample :
    (remove_key stateOneKey "a").1 = true ∧
    "a" ∉ (remove_key stateOneKey "a").2.free_keys ∧
    "a" ∉ (remove_key stateOneKey "a").2.paid_keys ∧
    alookup "a" (remove_key stateOneKey "a").2.active_slots = some [("m", 0)] ∧
    alookup "a" (remove_key stateOneKey "a").2.suspended_until = some [("m", 500)] := by
  decide

/-- C8 (amended): `remove_key` removes the credential from its tier list —
afterwards it belongs to no tier (given it occurred in at most one tier
position) and is reported found exactly when it was present — but its
active-count and suspended-until entries are left in the maps unchanged. -/
theorem C8_remove_scope (s : RotState) (k : String)
    (huniq : (s.free_keys ++ s.paid_keys).count k ≤ 1) :
    k ∉ (remove_key s k).2.free_keys ∧ k ∉ (remove_key s k).2.paid_keys ∧
    (remove_key s k).2.active_slots = s.active_slots ∧
    (remove_key s k).2.suspended_until = s.suspended_until ∧
    ((remove_key s k).1 = true ↔ (k ∈ s.free_keys ∨ k ∈ s.paid_keys)) := by
  rw [List.count_append] at huniq
  by_cases hf : k ∈ s.free_keys
  · have hcf : 0 < s.free_keys.count k := List.count_pos_iff.mpr hf
    have hcp : s.paid_keys.count k = 0 := by omega
    have hnp : k ∉ s.paid_keys := List.count_eq_zero.mp hcp
    have hred : remove_key s k = (true, { s with free_keys := s.free_keys.erase k, all_keys_count := s.all_keys_count - 1 }) := by
      simp [remove_key, hf]
    rw [hred]
    refine ⟨?_, hnp, rfl, rfl, by simp [hf]⟩
    have hz : (s.free_keys.erase k).count k = 0 := by
      rw [List.count_erase_self]
      omega
    exact List.count_eq_zero.mp hz
  · by_cases hp : k ∈ s.paid_keys
    · have hred : remove_key s k = (true, { s with paid_keys := s.paid_keys.erase k, all_keys_count := s.all_keys_count - 1 }) := by
        simp [remove_key, hf, hp]
      rw [hred]
      refine ⟨hf, ?_, rfl, rfl, by simp [hp]⟩
      have hcp : 0 < s.paid_keys.count k := List.count_pos_iff.mpr hp
      have hz : (s.paid_keys.erase k).count k = 0 := by
        rw [List.count_erase_self]
        omega
      exact List.count_eq_zero.mp hz
    · have hred : remove_key s k = (false, s) := by
        simp [remove_key, hf, hp]
      rw [hred]
      exact ⟨hf, hp, rfl, rfl, by simp [hf, hp]⟩

/-- Witness for C8 at a concrete state. -/
theorem C8_remove_scope_witness :
    (stateOneKey.free_keys ++ stateOneKey.paid_keys).count "a" ≤ 1 ∧
    "a" ∉ (remove_key stateOneKey "a").2.free_keys ∧
    (remove_key stateOneKey "a").2.active_slots = stateOneKey.active_slots := by
  have h := C8_remove_scope stateOneKey "a" (by decide)
  exact ⟨by decide, h.1, h.2.2.1⟩

/-- C9 counterexample: removing the credential at index 2 of a 3-credential
tier whose cursor is 2 leaves the cursor at 2 with the list shrunk to
length 2, so the cursor no longer lies within [0, tier length). -/
theorem C9_counterexample :
    (remove_key stateThreeKeys "c").1 = true ∧
    ¬((remove_key stateThreeKeys "c").2.free_index <
      (remove_key stateThreeKeys "c").2.free_keys.length) := by decide

/-- C9 (amended): `remove_key` performs no cursor clamping at all — both
rotation cursors are returned unchanged (so a cursor may exceed the shrunk
length; subsequent scans stay in range only because indices are taken
modulo the live length) — and it returns whether the credential was found. -/
theorem C9_no_cursor_clamping (s : RotState) (k : String) :
    (remove_key s k).2.free_index = s.free_index ∧
    (remove_key s k).2.paid_index = s.paid_index ∧
    ((remove_key s k).1 = true ↔ (k ∈ s.free_keys ∨ k ∈ s.paid_keys)) := by
  refine ⟨(remove_key_fields s k).2.2.2.2.1, (remove_key_fields s k).2.2.2.2.2, ?_⟩
  by_cases hf : k ∈ s.free_keys
  · simp [remove_key, hf]
  · by_cases hp : k ∈ s.paid_keys <;> simp [remove_key, hf, hp]

end AiCore
